import Mathlib

/-
Verification development for the treadmill-aws repository.

Two source files are embedded:
  * lib/python/treadmill_aws/spot.py      -- spot-price allocation planner
  * lib/python/treadmill_aws/ipaclient.py -- IPA client response classifier

Python floats are idealised as rationals (ℚ).  Python dicts (which preserve
insertion order and update values in place) are modelled as association
lists with an update-in-place operation.  Python exceptions (TypeError,
KeyError, ValueError, ZeroDivisionError) are modelled with an explicit
error type threaded through `Except`.
-/

/-- Python exceptions that the embedded spot.py code can raise. -/
inductive PyErr where
  | typeError
  | keyError
  | valueError
  | zeroDivisionError
deriving DecidableEq, Repr

/-- Character-list prefix test, used to implement the Python substring
operator `needle in hay`. -/
def headMatch : List Char → List Char → Bool
  | [], _ => true
  | _ :: _, [] => false
  | a :: as, b :: bs => a == b && headMatch as bs

/-- Character-list substring test. -/
def containsSub (n : List Char) : List Char → Bool
  | [] => headMatch n []
  | c :: rest => headMatch n (c :: rest) || containsSub n rest

/-- Python's string containment operator `needle in hay`. -/
def strContains (needle hay : String) : Bool :=
  containsSub needle.data hay.data

/-- Association-list lookup, modelling Python dict `d[k]` / `k in d`. -/
def lookupStr {α : Type} : List (String × α) → String → Option α
  | [], _ => none
  | (k, v) :: rest, s => if k = s then some v else lookupStr rest s

/-- Association-list assignment `d[k] = v`: updates the value in place if
the key is present (keeping its position, as Python dicts do), otherwise
appends the new key at the end. -/
def updateAssoc {α : Type} : List (String × α) → String → α → List (String × α)
  | [], k, v => [(k, v)]
  | (k0, v0) :: rest, k, v =>
    if k0 = k then (k0, v) :: rest else (k0, v0) :: updateAssoc rest k v

/-- Association-list increment `d[k] += n`.  In spot.py the key is always
present when this is executed (it was just initialised), so the nil case is
unreachable. -/
def bumpAssoc : List (String × ℕ) → String → ℕ → List (String × ℕ)
  | [], _, _ => []
  | (k0, v) :: rest, k, n =>
    if k0 = k then (k0, v + n) :: rest else (k0, v) :: bumpAssoc rest k n

/-- The portion of a string after the last occurrence of `sep`, i.e.
Python's `s.split(sep).pop()`. -/
def lastPartAfter (sep : Char) (s : String) : String :=
  String.mk ((s.data.reverse.takeWhile (fun c => !(c == sep))).reverse)

/-- Exact division on ℚ written with `Rat.divInt` so that it evaluates
inside the kernel; `ratDiv_eq` proves it is ordinary division.  (The
library's `Rat.mul`/`Rat.inv` are irreducible, which would block
evaluation of concrete runs.) -/
def ratDiv (a b : ℚ) : ℚ := Rat.divInt (a.num * (b.den : ℤ)) ((a.den : ℤ) * b.num)

/-- Stable insertion of a rational into an ascending list. -/
def insertAsc (x : ℚ) : List ℚ → List ℚ
  | [] => [x]
  | y :: ys => if x ≤ y then x :: y :: ys else y :: insertAsc x ys

/-- Ascending sort of rationals (the keys sorted here are pairwise
distinct dict keys, so any correct sort agrees with Python's `sorted`). -/
def sortAsc (l : List ℚ) : List ℚ := l.foldr insertAsc []

/- ------------------------------------------------------------------ -/
/- spot.py                                                            -/
/- ------------------------------------------------------------------ -/

/-- The static `_CORES` table of spot.py, mapping instance-size suffix to
core count. -/
def coresTable : List (String × ℕ) :=
  [("medium", 2), ("large", 2), ("xlarge", 4), ("2xlarge", 8),
   ("4xlarge", 16), ("10xlarge", 40), ("12xlarge", 48), ("16xlarge", 64),
   ("24xlarge", 96)]

/-- `cores_of(instance_type)`: looks up the size suffix (the part after
the last dot) in `_CORES`; a missing suffix raises KeyError. -/
def cores_of (instance_type : String) : Except PyErr ℕ :=
  match lookupStr coresTable (lastPartAfter '.' instance_type) with
  | some c => .ok c
  | none => .error .keyError

/-- One spot-price observation as returned by the EC2 pricing API
(`InstanceType` and `SpotPrice` fields). -/
structure SpotRecord where
  instanceType : String
  spotPrice : ℚ
deriving DecidableEq, Repr

/-- A populated pricing entry: `price`, `core_price` and `cores` keys of
the dict built by `get_pricing`.  The initial placeholder value `{}` of a
never-priced pair is modelled as `none` at the use sites. -/
structure PriceInfo where
  price : ℚ
  core_price : ℚ
  cores : ℕ
deriving DecidableEq, Repr

/-- `get_latest_price(types, az)`: the AWS call is abstracted by `history`
giving the 24-hour observations for a zone; the function returns the list
when it is non-empty and `None` (here `none`) otherwise. -/
def get_latest_price (history : String → List SpotRecord) (az : String) :
    Option (List SpotRecord) :=
  if (history az).isEmpty then none else some (history az)

/-- `dict.fromkeys(instance_types, \x7b\x7d)`: every instance type maps to
the empty-dict placeholder, modelled as `none`. -/
def fromkeysNone (keys : List String) : List (String × Option PriceInfo) :=
  keys.foldl (fun acc k => updateAssoc acc k none) []

/-- The dict value stored for one observation inside `get_pricing`:
`price`, `core_price = price / cores_of(t)` and `cores`; `cores_of` can
raise KeyError. -/
def normalizeRecord (r : SpotRecord) : Except PyErr PriceInfo :=
  match cores_of r.instanceType with
  | .error e => .error e
  | .ok c => .ok ⟨r.spotPrice, ratDiv r.spotPrice (c : ℚ), c⟩

/-- Inner loop of `get_pricing`: fold the zone's observations into the
per-zone dict, overwriting the placeholder of each observed type. -/
def processRecords (entries : List (String × Option PriceInfo)) :
    List SpotRecord → Except PyErr (List (String × Option PriceInfo))
  | [] => .ok entries
  | r :: rest =>
    match normalizeRecord r with
    | .error e => .error e
    | .ok info => processRecords (updateAssoc entries r.instanceType (some info)) rest

/-- Outer loop of `get_pricing` over the availability zones.  Iterating
over the `None` returned by `get_latest_price` for a zone with no
observations raises TypeError. -/
def pricingLoop (instance_types : List String) (history : String → List SpotRecord) :
    List String → List (String × List (String × Option PriceInfo)) →
    Except PyErr (List (String × List (String × Option PriceInfo)))
  | [], acc => .ok acc
  | az :: rest, acc =>
    match get_latest_price history az with
    | none => .error .typeError
    | some records =>
      match processRecords (fromkeysNone instance_types) records with
      | .error e => .error e
      | .ok entries => pricingLoop instance_types history rest (updateAssoc acc az entries)

/-- `get_pricing(instance_types, availability_zones)` of spot.py. -/
def get_pricing (instance_types azs : List String)
    (history : String → List SpotRecord) :
    Except PyErr (List (String × List (String × Option PriceInfo))) :=
  pricingLoop instance_types history azs []

/-- `choices[price].append(pair)` with `choices[price] = [pair]` on a new
key: appends to the existing group of an equal price, keeping the key in
its original position, otherwise adds a new group at the end. -/
def appendChoice : List (Option ℚ × List (String × String)) → Option ℚ →
    String × String → List (Option ℚ × List (String × String))
  | [], p, pr => [(p, [pr])]
  | (p0, l) :: rest, p, pr =>
    if p0 = p then (p0, l ++ [pr]) :: rest else (p0, l) :: appendChoice rest p pr

/-- Inner loop of `sort_by_price` over one zone's instance types.  The
key is `pricing[az][t].get('core_price')`: `none` for the empty-dict
placeholder of a never-priced pair, the core price otherwise. -/
def addEntries (az : String) : List (String × Option PriceInfo) →
    List (Option ℚ × List (String × String)) → List (Option ℚ × List (String × String))
  | [], choices => choices
  | (t, e) :: rest, choices =>
    addEntries az rest (appendChoice choices (Option.map PriceInfo.core_price e) (az, t))

/-- Outer loop of `sort_by_price` over the zones. -/
def sortByPriceLoop : List (String × List (String × Option PriceInfo)) →
    List (Option ℚ × List (String × String)) → List (Option ℚ × List (String × String))
  | [], choices => choices
  | (az, entries) :: rest, choices => sortByPriceLoop rest (addEntries az entries choices)

/-- `sort_by_price(pricing)` of spot.py: groups (zone, type) pairs by
their `core_price` key, in insertion order. -/
def sort_by_price (pricing : List (String × List (String × Option PriceInfo))) :
    List (Option ℚ × List (String × String)) :=
  sortByPriceLoop pricing []

/-- Dict-key lookup in the `sort_by_price` result (`price_list[price]`). -/
def pairsAt : List (Option ℚ × List (String × String)) → Option ℚ →
    List (String × String)
  | [], _ => []
  | (p0, l) :: rest, p => if p0 = p then l else pairsAt rest p

/-- Python's `sorted(price_list)` over the dict keys.  A singleton list
needs no comparison; otherwise comparing the `None` key of an unpriced
pair with a float raises TypeError; with only float keys the result is
the ascending sort. -/
def sortedPriceKeys (keys : List (Option ℚ)) : Except PyErr (List (Option ℚ)) :=
  if keys.length ≤ 1 then .ok keys
  else if keys.any Option.isNone then .error .typeError
  else .ok ((sortAsc (keys.filterMap id)).map some)

/-- `[choices.extend(price_list[price]) for price in sorted(price_list)]`. -/
def flattenChoices (price_list : List (Option ℚ × List (String × String)))
    (keys : List (Option ℚ)) : List (String × String) :=
  keys.foldl (fun acc p => acc ++ pairsAt price_list p) []

/-- `min([cores_of(itype) for itype in instance_types])`: the list
comprehension is evaluated first (propagating KeyError), and `min` of an
empty list raises ValueError. -/
def coresListOf : List String → Except PyErr (List ℕ)
  | [] => .ok []
  | t :: rest =>
    match cores_of t with
    | .error e => .error e
    | .ok c =>
      match coresListOf rest with
      | .error e => .error e
      | .ok cs => .ok (c :: cs)

/-- Python's `min` on a list of naturals. -/
def pyMin : List ℕ → Except PyErr ℕ
  | [] => .error .valueError
  | c :: cs => .ok (cs.foldl Nat.min c)

/-- `smallest = min([cores_of(itype) for itype in instance_types])`. -/
def smallest_of (instance_types : List String) : Except PyErr ℕ :=
  match coresListOf instance_types with
  | .error e => .error e
  | .ok cs => pyMin cs

/-- `cores_per_az` after `divmod(cores, smallest * min_azs)` and the
`*= smallest` rescaling (spot.py lines 78-79). -/
def cores_per_az_of (cores smallest min_azs : ℕ) : ℕ :=
  cores / (smallest * min_azs) * smallest

/-- The `spare_cores` remainder of `divmod(cores, smallest * min_azs)`. -/
def spare_cores_init (cores smallest min_azs : ℕ) : ℕ :=
  cores % (smallest * min_azs)

/-- The `while left_cores >= cores_of(instance_type)` loop: number of
whole units bought and the leftover pool.  The table's core counts are
all positive, so the `c = 0` guard (where the Python loop would not
terminate) is never taken. -/
def drainUnits (left c : ℕ) : ℕ × ℕ :=
  if 0 < c then (left / c, left % c) else (0, left)

/-- `if choice not in result: result[choice] = 0`. -/
def pyDictInit (result : List (String × ℕ)) (choice : String) : List (String × ℕ) :=
  if (lookupStr result choice).isSome then result else result ++ [(choice, 0)]

/-- The main `for az, instance_type in choices` loop of `get_cheap_cores`
(spot.py lines 82-97), carrying the running plan, `left_cores` and
`spare_cores`.  A pair is skipped when its zone occurs as a substring of
an existing plan key; the loop breaks once the plan has `min_azs`
entries; otherwise whole units are bought from the accumulated pool and
at most one bonus unit is bought from the spare-core carry. -/
def walkChoices (min_azs cores_per_az : ℕ) :
    List (String × String) → List (String × ℕ) → ℕ → ℕ →
    Except PyErr (List (String × ℕ))
  | [], result, _, _ => .ok result
  | (az, instance_type) :: rest, result, left_cores, spare_cores =>
    if result.any (fun kv => strContains az kv.1) then
      walkChoices min_azs cores_per_az rest result left_cores spare_cores
    else if result.length = min_azs then
      .ok result
    else
      match cores_of instance_type with
      | .error e => .error e
      | .ok c =>
        let choice := az ++ "|" ++ instance_type
        let result1 := pyDictInit result choice
        let du := drainUnits (left_cores + cores_per_az) c
        let result2 := bumpAssoc result1 choice du.1
        let spare1 := spare_cores + du.2
        if spare1 ≠ 0 ∧ c ≤ spare1 then
          walkChoices min_azs cores_per_az rest (bumpAssoc result2 choice 1) du.2 (spare1 - c)
        else
          walkChoices min_azs cores_per_az rest result2 du.2 spare1

/-- `get_cheap_cores(cores, instance_types, azs, min_azs)` of spot.py,
with the pricing API abstracted by `history`. -/
def get_cheap_cores (cores : ℕ) (instance_types azs : List String)
    (min_azs : ℕ) (history : String → List SpotRecord) :
    Except PyErr (List (String × ℕ)) :=
  match get_pricing instance_types azs history with
  | .error e => .error e
  | .ok pricing =>
    let price_list := sort_by_price pricing
    match sortedPriceKeys (price_list.map Prod.fst) with
    | .error e => .error e
    | .ok keys =>
      match smallest_of instance_types with
      | .error e => .error e
      | .ok smallest =>
        if smallest * min_azs = 0 then .error .zeroDivisionError
        else
          walkChoices min_azs (cores_per_az_of cores smallest min_azs)
            (flattenChoices price_list keys) [] 0
            (spare_cores_init cores smallest min_azs)

/-- The instance type encoded in a plan key `"<zone>|<type>"`. -/
def keyInstanceType (choice : String) : String :=
  String.mk ((choice.data.reverse.takeWhile (fun c => !(c == '|'))).reverse)

/-- Total cores of a plan: sum over entries of unit count times the core
count of the entry's instance type. -/
def planTotalCores (plan : List (String × ℕ)) : ℕ :=
  plan.foldl
    (fun acc kv =>
      acc + kv.2 * (match cores_of (keyInstanceType kv.1) with
                    | .ok c => c
                    | .error _ => 0)) 0

/- ------------------------------------------------------------------ -/
/- ipaclient.py                                                       -/
/- ------------------------------------------------------------------ -/

/-- The exception raised by `check_response`: one of the IPAError
subclasses, the bare `IPAError` base class itself, or the ValueError that
`response.json()` raises on an unparsable body. -/
inductive RaisedErr where
  | authenticationError (msg : String)
  | authorizationError (msg : String)
  | invocationError (msg : String)
  | notFoundError (msg : String)
  | alreadyExistsError (msg : String)
  | executionError (msg : String)
  | genericError (msg : String)
  | ipaError (msg : String)
  | valueError
deriving DecidableEq, Repr

/-- The error-taxonomy category of a raised exception, by its class. -/
inductive ErrCategory where
  | authentication
  | authorization
  | invocation
  | notFound
  | alreadyExists
  | execution
  | generic
  | baseIpa
  | parseFailure
deriving DecidableEq, Repr

/-- Which class of the exception hierarchy was raised.  `GenericError`
(the 5000-5999 band class) maps to `generic`; the bare `IPAError` base
class (used for unknown codes and for truncated results) maps to
`baseIpa`. -/
def categoryOf : RaisedErr → ErrCategory
  | .authenticationError _ => .authentication
  | .authorizationError _ => .authorization
  | .invocationError _ => .invocation
  | .notFoundError _ => .notFound
  | .alreadyExistsError _ => .alreadyExists
  | .executionError _ => .execution
  | .genericError _ => .generic
  | .ipaError _ => .baseIpa
  | .valueError => .parseFailure

/-- The `error` object of an IPA JSON response: a numeric code and a
message. -/
structure ErrObj where
  code : ℤ
  message : String
deriving DecidableEq, Repr

/-- The `result` payload of an IPA JSON response; only the `truncated`
flag (read with `.get('truncated', False)`) matters here. -/
structure ResultObj where
  truncated : Bool
deriving DecidableEq, Repr

/-- A parsed IPA JSON response object.  `result = none` models a falsy
`result` payload and `error = none` a falsy `error` field (Python
truthiness). -/
structure RespObj where
  result : Option ResultObj
  error : Option ErrObj
deriving DecidableEq, Repr

/-- An HTTP response: the raw body text plus the outcome of
`response.json()` (`none` when the body is not valid JSON, in which case
Python raises ValueError). -/
structure HttpResponse where
  text : String
  json : Option RespObj
deriving DecidableEq, Repr

/-- The credential-failure marker that FreeIPA puts in an HTML body when
Kerberos credentials are invalid. -/
def credMarker : String := "Unable to verify your Kerberos credentials"

/-- `if response_obj['result']: if response_obj['result'].get('truncated',
False)`. -/
def resultTruncated (obj : RespObj) : Bool :=
  match obj.result with
  | none => false
  | some res => res.truncated

/-- `check_response(response)` of ipaclient.py: the credential-marker
pre-check on the raw body, JSON parsing, the truncation pre-check, and
the error-code band classification. -/
def check_response (response : HttpResponse) : Except RaisedErr Unit :=
  if strContains credMarker response.text then
    .error (.authenticationError ("Invalid Kerberos Credentials"))
  else
    match response.json with
    | none => .error .valueError
    | some response_obj =>
      if resultTruncated response_obj then
        .error (.ipaError ("IPA results truncated."))
      else
        match response_obj.error with
        | none => .ok ()
        | some err =>
          if 1000 ≤ err.code ∧ err.code ≤ 1999 then
            .error (.authenticationError err.message)
          else if 2000 ≤ err.code ∧ err.code ≤ 2999 then
            .error (.authorizationError err.message)
          else if 3000 ≤ err.code ∧ err.code ≤ 3999 then
            .error (.invocationError err.message)
          else if err.code = 4001 then
            .error (.notFoundError err.message)
          else if err.code = 4002 then
            .error (.alreadyExistsError err.message)
          else if 4000 ≤ err.code ∧ err.code ≤ 4999 then
            .error (.executionError err.message)
          else if 5000 ≤ err.code ∧ err.code ≤ 5999 then
            .error (.genericError err.message)
          else
            .error (.ipaError ("Unknown error."))

/- ------------------------------------------------------------------ -/
/- Concrete inputs used to evaluate the embedded code                 -/
/- ------------------------------------------------------------------ -/

deriving instance DecidableEq for Except

/-- Price history: every zone offers m5.large at 2/hr (1 per core) and
c5.24xlarge at 48/hr (1/2 per core), so the 96-core type wins the
ranking everywhere. -/
def histC1 (_az : String) : List SpotRecord :=
  [⟨"m5.large", 2⟩, ⟨"c5.24xlarge", 48⟩]

/-- Price history in which only the two zones z1 and z2 exist, z1 being
the cheaper. -/
def histC2 (az : String) : List SpotRecord :=
  if az = "z1" then [⟨"m5.large", 1⟩] else [⟨"m5.large", 4⟩]

/-- Price history with a single priced zone. -/
def histC2w (_az : String) : List SpotRecord := [⟨"m5.large", 1⟩]

/-- Price history whose only observation is for m5.large, leaving
m5.xlarge unpriced. -/
def histC3 (_az : String) : List SpotRecord := [⟨"m5.large", 1⟩]

/-- Price history for the zones us-west-2 and us-west-2a, the latter
cheaper; the former's identifier is a substring of the latter's. -/
def histC9 (az : String) : List SpotRecord :=
  if az = "us-west-2" then [⟨"m5.large", 4⟩] else [⟨"m5.large", 1⟩]

/-- Price history with one zone priced at 2/hr. -/
def histC9w (_az : String) : List SpotRecord := [⟨"m5.large", 2⟩]

/-- Price history for the zones us-east-1 and us-east-1a, the latter
cheaper; the former's identifier is a substring of the latter's. -/
def histC10 (az : String) : List SpotRecord :=
  if az = "us-east-1" then [⟨"m5.large", 4⟩] else [⟨"m5.large", 1⟩]

/- ------------------------------------------------------------------ -/
/- Theorems                                                           -/
/- ------------------------------------------------------------------ -/

theorem ratDiv_eq (a b : ℚ) : ratDiv a b = a / b := by
  unfold ratDiv
  rw [Rat.divInt_eq_div]
  rcases eq_or_ne b 0 with hb | hb
  · subst hb
    push_cast
    simp
  · have had : (a.den : ℚ) ≠ 0 := by exact_mod_cast Rat.den_ne_zero a
    have hbd : (b.den : ℚ) ≠ 0 := by exact_mod_cast Rat.den_ne_zero b
    have hbn : (b.num : ℚ) ≠ 0 := by exact_mod_cast Rat.num_ne_zero.mpr hb
    have ha : (a.num : ℚ) = a * a.den := (div_eq_iff had).mp (Rat.num_div_den a)
    have hb2 : (b.num : ℚ) = b * b.den := (div_eq_iff hbd).mp (Rat.num_div_den b)
    push_cast
    rw [div_eq_div_iff (mul_ne_zero had hbn) hb, ha, hb2]
    ring

theorem pairsAt_appendChoice_self (p : Option ℚ) (pr : String × String) :
    ∀ ch : List (Option ℚ × List (String × String)),
      pr ∈ pairsAt (appendChoice ch p pr) p := by
  intro ch
  induction ch with
  | nil => simp [appendChoice, pairsAt]
  | cons hd tl ih =>
    obtain ⟨p0, l⟩ := hd
    simp only [appendChoice]
    split_ifs with hp
    · simp [pairsAt, hp]
    · simpa [pairsAt, hp] using ih

theorem pairsAt_appendChoice_mono (p q : Option ℚ) (pr x : String × String) :
    ∀ ch : List (Option ℚ × List (String × String)),
      x ∈ pairsAt ch q → x ∈ pairsAt (appendChoice ch p pr) q := by
  intro ch
  induction ch with
  | nil => intro hx; simp [pairsAt] at hx
  | cons hd tl ih =>
    intro hx
    obtain ⟨p0, l⟩ := hd
    simp only [appendChoice]
    split_ifs with hp
    · simp only [pairsAt] at hx ⊢
      split_ifs at hx ⊢ with hq
      · exact List.mem_append_left _ hx
      · exact hx
    · simp only [pairsAt] at hx ⊢
      split_ifs at hx ⊢ with hq
      · exact hx
      · exact ih hx

theorem pairsAt_addEntries_mono (az : String) (q : Option ℚ) (x : String × String) :
    ∀ (entries : List (String × Option PriceInfo))
      (ch : List (Option ℚ × List (String × String))),
      x ∈ pairsAt ch q → x ∈ pairsAt (addEntries az entries ch) q := by
  intro entries
  induction entries with
  | nil => intro ch hx; simpa [addEntries] using hx
  | cons hd tl ih =>
    intro ch hx
    obtain ⟨t, e⟩ := hd
    simp only [addEntries]
    exact ih _ (pairsAt_appendChoice_mono _ _ _ _ _ hx)

theorem pairsAt_addEntries_none (az t : String) :
    ∀ (entries : List (String × Option PriceInfo))
      (ch : List (Option ℚ × List (String × String))),
      (t, (none : Option PriceInfo)) ∈ entries →
      (az, t) ∈ pairsAt (addEntries az entries ch) none := by
  intro entries
  induction entries with
  | nil => intro ch h; simp at h
  | cons hd tl ih =>
    intro ch h
    obtain ⟨t0, e0⟩ := hd
    simp only [addEntries]
    rcases List.mem_cons.mp h with h1 | h1
    · obtain ⟨h2, h3⟩ := Prod.mk.inj h1
      subst h2
      subst h3
      exact pairsAt_addEntries_mono az none (az, t) tl _ (by
        simpa using pairsAt_appendChoice_self (Option.map PriceInfo.core_price none) (az, t) ch)
    · exact ih _ h1

theorem pairsAt_sortByPriceLoop_mono (q : Option ℚ) (x : String × String) :
    ∀ (pricing : List (String × List (String × Option PriceInfo)))
      (ch : List (Option ℚ × List (String × String))),
      x ∈ pairsAt ch q → x ∈ pairsAt (sortByPriceLoop pricing ch) q := by
  intro pricing
  induction pricing with
  | nil => intro ch hx; simpa [sortByPriceLoop] using hx
  | cons hd tl ih =>
    intro ch hx
    obtain ⟨az, entries⟩ := hd
    simp only [sortByPriceLoop]
    exact ih _ (pairsAt_addEntries_mono az q x entries ch hx)

/-- C3, counterexample: with an observation only for m5.large, the pair
(z1, m5.xlarge) has no price observation, yet `get_pricing` keeps it as
an empty-dict entry, `sort_by_price` ranks it in a group under the
placeholder price `None`, and `get_cheap_cores` then fails with a
TypeError when `sorted` compares the `None` key with a float key — the
pair is neither absent from the candidate set nor missing from the
ranking, contradicting the claim. -/
theorem c3_unpriced_pair_ranked_counterexample :
    get_pricing ["m5.large", "m5.xlarge"] ["z1"] histC3 =
      .ok [("z1", [("m5.large", some ⟨1, mkRat 1 2, 2⟩), ("m5.xlarge", none)])] ∧
    sort_by_price [("z1", [("m5.large", some ⟨1, mkRat 1 2, 2⟩), ("m5.xlarge", none)])] =
      [(some (mkRat 1 2), [("z1", "m5.large")]), (none, [("z1", "m5.xlarge")])] ∧
    get_cheap_cores 8 ["m5.large", "m5.xlarge"] ["z1"] 1 histC3 = .error .typeError := by
  refine ⟨by decide, by decide, by decide⟩

theorem pairsAt_sortByPriceLoop_none (az t : String)
    (entries : List (String × Option PriceInfo)) :
    ∀ (pricing : List (String × List (String × Option PriceInfo)))
      (ch : List (Option ℚ × List (String × String))),
      (az, entries) ∈ pricing → (t, (none : Option PriceInfo)) ∈ entries →
      (az, t) ∈ pairsAt (sortByPriceLoop pricing ch) none := by
  intro pricing
  induction pricing with
  | nil => intro ch h1 _; simp at h1
  | cons hd tl ih =>
    intro ch h1 h2
    obtain ⟨az0, entries0⟩ := hd
    simp only [sortByPriceLoop]
    rcases List.mem_cons.mp h1 with h3 | h3
    · obtain ⟨h4, h5⟩ := Prod.mk.inj h3
      subst h4
      subst h5
      exact pairsAt_sortByPriceLoop_mono none (az, t) tl _
        (pairsAt_addEntries_none az t entries _ h2)
    · exact ih _ h3 h2

/-- C3, amended: a (zone, instance_type) pair whose pricing entry is the
empty-dict placeholder (no price observation) is not dropped: it appears
in the ranking built by `sort_by_price`, grouped under the placeholder
price `None` (never under a zero price). -/
theorem c3_unpriced_pair_in_none_group
    (pricing : List (String × List (String × Option PriceInfo)))
    (az t : String) (entries : List (String × Option PriceInfo))
    (h1 : (az, entries) ∈ pricing) (h2 : (t, (none : Option PriceInfo)) ∈ entries) :
    (az, t) ∈ pairsAt (sort_by_price pricing) none := by
  unfold sort_by_price
  exact pairsAt_sortByPriceLoop_none az t entries pricing [] h1 h2

/-- C3, witness for the amended theorem, instantiated at a one-zone
pricing map whose m5.xlarge entry is the unpriced placeholder. -/
theorem c3_unpriced_pair_in_none_group_witness :
    (("z1", [("m5.xlarge", (none : Option PriceInfo))]) ∈
      [("z1", [("m5.xlarge", (none : Option PriceInfo))])]) ∧
    ("z1", "m5.xlarge") ∈
      pairsAt (sort_by_price [("z1", [("m5.xlarge", (none : Option PriceInfo))])]) none :=
  ⟨by decide,
   c3_unpriced_pair_in_none_group [("z1", [("m5.xlarge", none)])] "z1" "m5.xlarge"
     [("m5.xlarge", none)] (by decide) (by decide)⟩

theorem bumpAssoc_length : ∀ (l : List (String × ℕ)) (k : String) (n : ℕ),
    (bumpAssoc l k n).length = l.length := by
  intro l
  induction l with
  | nil => intro k n; rfl
  | cons hd tl ih =>
    intro k n
    obtain ⟨k0, v⟩ := hd
    by_cases h : k0 = k <;> simp [bumpAssoc, h, ih]

theorem pyDictInit_length_le (result : List (String × ℕ)) (choice : String) :
    (pyDictInit result choice).length ≤ result.length + 1 := by
  unfold pyDictInit
  split_ifs <;> simp

theorem walkChoices_length_le (m cpz : ℕ) :
    ∀ (choices : List (String × String)) (result : List (String × ℕ))
      (left spare : ℕ) (r : List (String × ℕ)),
      result.length ≤ m →
      walkChoices m cpz choices result left spare = .ok r → r.length ≤ m := by
  intro choices
  induction choices with
  | nil =>
    intro result left spare r hlen h
    simp only [walkChoices] at h
    cases h
    exact hlen
  | cons hd tl ih =>
    intro result left spare r hlen h
    obtain ⟨az, t⟩ := hd
    simp only [walkChoices] at h
    split at h
    · exact ih result left spare r hlen h
    · split at h
      · cases h
        exact hlen
      · rename_i hskip hfull
        have hlt : result.length < m := lt_of_le_of_ne hlen hfull
        split at h
        · exact Except.noConfusion h
        · rename_i c hc
          have hinit : (pyDictInit result (az ++ "|" ++ t)).length ≤ m :=
            le_trans (pyDictInit_length_le result _) hlt
          split at h
          · refine ih _ _ _ _ ?_ h
            rw [bumpAssoc_length, bumpAssoc_length]
            exact hinit
          · refine ih _ _ _ _ ?_ h
            rw [bumpAssoc_length]
            exact hinit

/-- C2, counterexample: only the two zones z1 and z2 have any priced
option while min_azs = 3, yet `get_cheap_cores` returns a two-zone plan
normally instead of failing — no InsufficientZoneDiversity (or any
other) error is raised. -/
theorem c2_no_diversity_error_counterexample :
    get_cheap_cores 4 ["m5.large"] ["z1", "z2"] 3 histC2 =
      .ok [("z1|m5.large", 1), ("z2|m5.large", 1)] := by
  decide

/-- C2, amended: the plan built by `get_cheap_cores` spans at most
min_azs zones (the loop stops once the plan has min_azs entries), but
when fewer zones than min_azs have a priced option the function returns
the smaller plan normally — there is no InsufficientZoneDiversity
error. -/
theorem c2_plan_at_most_min_azs (cores : ℕ) (instance_types azs : List String)
    (min_azs : ℕ) (history : String → List SpotRecord) (r : List (String × ℕ))
    (h : get_cheap_cores cores instance_types azs min_azs history = .ok r) :
    r.length ≤ min_azs := by
  simp only [get_cheap_cores] at h
  split at h
  · exact Except.noConfusion h
  · split at h
    · exact Except.noConfusion h
    · split at h
      · exact Except.noConfusion h
      · split at h
        · exact Except.noConfusion h
        · exact walkChoices_length_le _ _ _ _ _ _ _ (by simp) h

/-- C2, witness for the amended theorem: a single-zone run with
min_azs = 3 yields a one-entry plan, and the theorem bounds its size. -/
theorem c2_plan_at_most_min_azs_witness :
    get_cheap_cores 4 ["m5.large"] ["z1"] 3 histC2w = .ok [("z1|m5.large", 1)] ∧
    ([("z1|m5.large", 1)] : List (String × ℕ)).length ≤ 3 :=
  ⟨by decide, c2_plan_at_most_min_azs 4 ["m5.large"] ["z1"] 3 histC2w _ (by decide)⟩

theorem bumpAssoc_zero_vals : ∀ (l : List (String × ℕ)) (k : String),
    (∀ kv ∈ l, kv.2 = 0) → ∀ kv ∈ bumpAssoc l k 0, kv.2 = 0 := by
  intro l
  induction l with
  | nil => intro k _ kv hkv; simp [bumpAssoc] at hkv
  | cons hd tl ih =>
    intro k hall kv hkv
    obtain ⟨k0, v⟩ := hd
    by_cases hk : k0 = k
    · simp only [bumpAssoc, if_pos hk] at hkv
      rcases List.mem_cons.mp hkv with h1 | h1
      · subst h1
        simpa using hall (k0, v) (List.mem_cons_self _ _)
      · exact hall kv (List.mem_cons_of_mem _ h1)
    · simp only [bumpAssoc, if_neg hk] at hkv
      rcases List.mem_cons.mp hkv with h1 | h1
      · subst h1
        exact hall (k0, v) (List.mem_cons_self _ _)
      · exact ih k (fun p hp => hall p (List.mem_cons_of_mem _ hp)) kv h1

theorem pyDictInit_zero_vals (result : List (String × ℕ)) (choice : String)
    (h : ∀ kv ∈ result, kv.2 = 0) : ∀ kv ∈ pyDictInit result choice, kv.2 = 0 := by
  intro kv hkv
  unfold pyDictInit at hkv
  split_ifs at hkv
  · exact h kv hkv
  · rcases List.mem_append.mp hkv with h1 | h1
    · exact h kv h1
    · simp at h1
      subst h1
      rfl

theorem walkChoices_zero_alloc (m : ℕ) :
    ∀ (choices : List (String × String)) (result : List (String × ℕ))
      (r : List (String × ℕ)),
      (∀ kv ∈ result, kv.2 = 0) →
      walkChoices m 0 choices result 0 0 = .ok r →
      ∀ kv ∈ r, kv.2 = 0 := by
  intro choices
  induction choices with
  | nil =>
    intro result r h0 h
    simp only [walkChoices] at h
    cases h
    exact h0
  | cons hd tl ih =>
    intro result r h0 h
    obtain ⟨az, t⟩ := hd
    simp only [walkChoices] at h
    split at h
    · exact ih _ _ h0 h
    · split at h
      · cases h
        exact h0
      · split at h
        · exact Except.noConfusion h
        · rename_i c hc
          have hdu : drainUnits (0 + 0) c = (0, 0) := by
            unfold drainUnits
            split_ifs <;> simp
          rw [hdu] at h
          simp only [Nat.add_zero, Nat.zero_add, ne_eq, not_true_eq_false,
            false_and, if_false] at h
          refine ih _ _ ?_ h
          exact bumpAssoc_zero_vals _ _ (pyDictInit_zero_vals result _ h0)

/-- C9, counterexample: with R = 0, min_azs = 2 and the two priced zones
us-west-2 and us-west-2a (both with pricing data), the returned plan has
a single zero-unit entry rather than one for each of the two
cheapest-available zones: us-west-2 is skipped because its identifier is
a substring of the key already chosen for us-west-2a. -/
theorem c9_zero_cores_counterexample :
    get_cheap_cores 0 ["m5.large"] ["us-west-2", "us-west-2a"] 2 histC9 =
      .ok [("us-west-2a|m5.large", 0)] ∧
    ([("us-west-2a|m5.large", 0)] : List (String × ℕ)).length = 1 ∧ 1 < 2 := by
  refine ⟨by decide, by decide, by decide⟩

/-- C9, amended: when the requested core count is 0, `get_cheap_cores`
raises no error (whenever pricing succeeds) and every entry of the
returned plan has a unit count of zero, so no cores are allocated; the
entries cover successively cheapest zones, but a zone whose identifier
occurs as a substring of an already-chosen plan key is skipped, so the
plan can have fewer than min_azs entries. -/
theorem c9_zero_request_zero_units (instance_types azs : List String)
    (min_azs : ℕ) (history : String → List SpotRecord) (r : List (String × ℕ))
    (h : get_cheap_cores 0 instance_types azs min_azs history = .ok r) :
    ∀ kv ∈ r, kv.2 = 0 := by
  simp only [get_cheap_cores] at h
  split at h
  · exact Except.noConfusion h
  · split at h
    · exact Except.noConfusion h
    · split at h
      · exact Except.noConfusion h
      · rename_i smallest hsm
        split at h
        · exact Except.noConfusion h
        · have h1 : cores_per_az_of 0 smallest min_azs = 0 := by
            simp [cores_per_az_of]
          have h2 : spare_cores_init 0 smallest min_azs = 0 := by
            simp [spare_cores_init]
          rw [h1, h2] at h
          exact walkChoices_zero_alloc min_azs _ _ _ (by simp) h

/-- C9, witness for the amended theorem: a zero-core request over one
priced zone returns a single entry with a unit count of zero. -/
theorem c9_zero_request_zero_units_witness :
    get_cheap_cores 0 ["m5.large"] ["z9"] 3 histC9w = .ok [("z9|m5.large", 0)] ∧
    (("z9|m5.large", 0) : String × ℕ).2 = 0 :=
  ⟨by decide,
   c9_zero_request_zero_units ["m5.large"] ["z9"] 3 histC9w [("z9|m5.large", 0)]
     (by decide) ("z9|m5.large", 0) (by simp)⟩

/-- C1, failing input: R = 30 cores requested from three zones, each of
which prices m5.large (2 cores, 1/core-hr) and c5.24xlarge (96 cores,
1/2 per core-hr), min_azs = 3.  The ranking picks c5.24xlarge in every
zone.  `smallest = 2`, so `cores_per_az = 30 / 6 * 2 = 10`: the per-zone
pool (10, then 20, then 30) never reaches the chosen type's 96 cores and
the spare-core carry peaks at 60 < 96, so the plan allocates zero units
in every zone — 0 cores in total against a request of 30, violating the
claimed `sum ≥ R` invariant even though pricing data exists for every
chosen zone and R > 0. -/
theorem c1_undershoot_eval :
    get_cheap_cores 30 ["m5.large", "c5.24xlarge"] ["az-a", "az-b", "az-c"] 3 histC1 =
      .ok [("az-a|c5.24xlarge", 0), ("az-b|c5.24xlarge", 0), ("az-c|c5.24xlarge", 0)] ∧
    planTotalCores
      [("az-a|c5.24xlarge", 0), ("az-b|c5.24xlarge", 0), ("az-c|c5.24xlarge", 0)] = 0 ∧
    0 < 30 := by
  refine ⟨by decide, by decide, by decide⟩

/-- C10: `get_cheap_cores` tests whether a zone is already chosen by a
substring check of the "zone|type" plan keys.  At this input the zone
us-east-1 has a priced option (shown by the `get_pricing` conjunct) and
no entry in the returned plan, yet it is skipped because "us-east-1" is
a substring of the key "us-east-1a|m5.large", so the plan spans 1 zone,
fewer than min(min_azs, number of zones) = 2. -/
theorem c10_substring_zone_skip :
    get_cheap_cores 4 ["m5.large"] ["us-east-1", "us-east-1a"] 2 histC10 =
      .ok [("us-east-1a|m5.large", 1)] ∧
    get_pricing ["m5.large"] ["us-east-1", "us-east-1a"] histC10 =
      .ok [("us-east-1", [("m5.large", some ⟨4, 2, 2⟩)]),
           ("us-east-1a", [("m5.large", some ⟨1, mkRat 1 2, 2⟩)])] ∧
    strContains ("us-east-1") ("us-east-1a|m5.large") = true ∧
    ([("us-east-1a|m5.large", 1)] : List (String × ℕ)).length < min 2 2 := by
  refine ⟨by decide, by decide, by decide, by decide⟩

theorem foldl_min_le_init : ∀ (l : List ℕ) (a : ℕ), l.foldl Nat.min a ≤ a := by
  intro l
  induction l with
  | nil => intro a; exact le_refl a
  | cons b tl ih =>
    intro a
    exact le_trans (ih (Nat.min a b)) (Nat.min_le_left a b)

theorem foldl_min_le_mem : ∀ (l : List ℕ) (a x : ℕ), x ∈ l → l.foldl Nat.min a ≤ x := by
  intro l
  induction l with
  | nil => intro a x hx; simp at hx
  | cons b tl ih =>
    intro a x hx
    rcases List.mem_cons.mp hx with h1 | h1
    · subst h1
      exact le_trans (foldl_min_le_init tl (Nat.min a x)) (Nat.min_le_right a x)
    · exact ih (Nat.min a b) x h1

theorem foldl_min_mem : ∀ (l : List ℕ) (a : ℕ),
    l.foldl Nat.min a = a ∨ l.foldl Nat.min a ∈ l := by
  intro l
  induction l with
  | nil => intro a; exact Or.inl rfl
  | cons b tl ih =>
    intro a
    rw [List.foldl_cons]
    have hdef : Nat.min a b = if a ≤ b then a else b := rfl
    rcases ih (Nat.min a b) with h1 | h1
    · rcases Nat.le_total a b with h2 | h2
      · exact Or.inl (by rw [h1, hdef, if_pos h2])
      · refine Or.inr ?_
        have h3 : Nat.min a b = b := by
          rw [hdef]
          split_ifs with h4
          · exact Nat.le_antisymm h4 h2
          · rfl
        rw [h1, h3]
        exact List.mem_cons_self _ _
    · exact Or.inr (List.mem_cons_of_mem _ h1)

theorem pyMin_le (cs : List ℕ) (s : ℕ) (h : pyMin cs = .ok s) :
    ∀ c ∈ cs, s ≤ c := by
  cases cs with
  | nil => exact Except.noConfusion h
  | cons c0 rest =>
    intro c hc
    simp only [pyMin] at h
    cases h
    rcases List.mem_cons.mp hc with h1 | h1
    · subst h1
      exact foldl_min_le_init rest c
    · exact foldl_min_le_mem rest c0 c h1

theorem pyMin_mem (cs : List ℕ) (s : ℕ) (h : pyMin cs = .ok s) : s ∈ cs := by
  cases cs with
  | nil => exact Except.noConfusion h
  | cons c0 rest =>
    simp only [pyMin] at h
    cases h
    rcases foldl_min_mem rest c0 with h1 | h1
    · rw [h1]
      exact List.mem_cons_self _ _
    · exact List.mem_cons_of_mem _ h1

theorem coresListOf_mem_left : ∀ (T : List String) (cs : List ℕ),
    coresListOf T = .ok cs → ∀ t ∈ T, ∃ c ∈ cs, cores_of t = .ok c := by
  intro T
  induction T with
  | nil => intro cs _ t ht; simp at ht
  | cons t0 rest ih =>
    intro cs h t ht
    simp only [coresListOf] at h
    split at h
    · exact Except.noConfusion h
    · rename_i c0 hc0
      split at h
      · exact Except.noConfusion h
      · rename_i cs0 hcs0
        cases h
        rcases List.mem_cons.mp ht with h1 | h1
        · subst h1
          exact ⟨c0, List.mem_cons_self _ _, hc0⟩
        · obtain ⟨c, hc1, hc2⟩ := ih cs0 hcs0 t h1
          exact ⟨c, List.mem_cons_of_mem _ hc1, hc2⟩

theorem coresListOf_mem_right : ∀ (T : List String) (cs : List ℕ),
    coresListOf T = .ok cs → ∀ c ∈ cs, ∃ t ∈ T, cores_of t = .ok c := by
  intro T
  induction T with
  | nil =>
    intro cs h c hc
    simp only [coresListOf] at h
    cases h
    simp at hc
  | cons t0 rest ih =>
    intro cs h c hc
    simp only [coresListOf] at h
    split at h
    · exact Except.noConfusion h
    · rename_i c0 hc0
      split at h
      · exact Except.noConfusion h
      · rename_i cs0 hcs0
        cases h
        rcases List.mem_cons.mp hc with h1 | h1
        · subst h1
          exact ⟨t0, List.mem_cons_self _ _, hc0⟩
        · obtain ⟨t, ht1, ht2⟩ := ih cs0 hcs0 c h1
          exact ⟨t, List.mem_cons_of_mem _ ht1, ht2⟩

/-- C4: the `smallest` computed by `get_cheap_cores` (via `smallest_of`)
is the minimum core count over ALL candidate instance types — a lower
bound on, and attained by, the core count of every type in the list —
and the division parameters derived from it satisfy the `divmod`
identity: min_azs times the per-zone baseline `cores_per_az` plus the
initial `spare_cores` remainder reconstructs the requested core count,
with the remainder strictly below `smallest * min_azs`. -/
theorem c4_smallest_and_divmod (instance_types : List String) (s : ℕ)
    (h : smallest_of instance_types = .ok s) :
    (∀ t ∈ instance_types, ∀ c, cores_of t = .ok c → s ≤ c) ∧
    (∃ t ∈ instance_types, cores_of t = .ok s) ∧
    (∀ cores min_azs : ℕ, 0 < s * min_azs →
      min_azs * cores_per_az_of cores s min_azs + spare_cores_init cores s min_azs
        = cores ∧
      spare_cores_init cores s min_azs < s * min_azs) := by
  simp only [smallest_of] at h
  split at h
  · exact Except.noConfusion h
  · rename_i cs hcs
    refine ⟨?_, ?_, ?_⟩
    · intro t ht c hc
      obtain ⟨c', hc1', hc2'⟩ := coresListOf_mem_left instance_types cs hcs t ht
      rw [hc] at hc2'
      cases hc2'
      exact pyMin_le cs s h c hc1'
    · exact coresListOf_mem_right instance_types cs hcs s (pyMin_mem cs s h)
    · intro cores min_azs hpos
      constructor
      · unfold cores_per_az_of spare_cores_init
        have hdm := Nat.div_add_mod cores (s * min_azs)
        calc min_azs * (cores / (s * min_azs) * s) + cores % (s * min_azs)
            = s * min_azs * (cores / (s * min_azs)) + cores % (s * min_azs) := by ring_nf
          _ = cores := hdm
      · exact Nat.mod_lt cores hpos

/-- C4, witness: for T = [m5.large, m5.xlarge], smallest is 2 (all
types, including the unchosen one, participate in the minimum), and the
divmod identity holds at R = 10, min_azs = 3. -/
theorem c4_smallest_and_divmod_witness :
    smallest_of ["m5.large", "m5.xlarge"] = .ok 2 ∧
    (3 * cores_per_az_of 10 2 3 + spare_cores_init 10 2 3 = 10 ∧
      spare_cores_init 10 2 3 < 2 * 3) :=
  ⟨by decide,
   (c4_smallest_and_divmod ["m5.large", "m5.xlarge"] 2 (by decide)).2.2 10 3 (by decide)⟩

/-- C7: whenever the raw response body contains the credential-failure
marker, `check_response` raises the Authentication error — the check
precedes JSON parsing, so the conclusion holds for every value of the
parse outcome `response.json`, including `none` (an unparsable body). -/
theorem c7_cred_marker_authentication (r : HttpResponse)
    (h : strContains credMarker r.text = true) :
    check_response r = .error (.authenticationError ("Invalid Kerberos Credentials")) := by
  simp [check_response, h]

/-- C7, witness: a response whose body is exactly the marker and whose
body is not valid JSON (`json = none`) is classified as Authentication. -/
theorem c7_cred_marker_authentication_witness :
    strContains credMarker credMarker = true ∧
    check_response ⟨credMarker, none⟩ =
      .error (.authenticationError ("Invalid Kerberos Credentials")) :=
  ⟨by decide, c7_cred_marker_authentication ⟨credMarker, none⟩ (by decide)⟩

/-- C8, counterexample: a structurally valid response with no
server-reported error whose result payload has the truncated flag set
makes `check_response` raise the catch-all base `IPAError` class
("IPA results truncated."), not the `GenericError` class of the
5000-5999 band — so the raised failure is not of the Generic category
as the claim states. -/
theorem c8_truncated_counterexample :
    check_response ⟨"ok body", some ⟨some ⟨true⟩, none⟩⟩ =
      .error (.ipaError ("IPA results truncated.")) ∧
    categoryOf (.ipaError ("IPA results truncated.")) ≠ ErrCategory.generic := by
  refine ⟨by decide, by decide⟩

/-- C8, amended: for every structurally valid, marker-free response with
no server-reported error whose result payload has the truncated flag
set, `check_response` raises the base `IPAError` exception with message
"IPA results truncated." (the catch-all class, not the GenericError band
class), even though the server reported no error. -/
theorem c8_truncated_base_error (r : HttpResponse) (obj : RespObj)
    (hm : strContains credMarker r.text = false) (hj : r.json = some obj)
    (ht : resultTruncated obj = true) (_he : obj.error = none) :
    check_response r = .error (.ipaError ("IPA results truncated.")) := by
  simp [check_response, hm, hj, ht]

/-- C8, witness for the amended theorem: a truncated search result with
no error raises the base IPA error. -/
theorem c8_truncated_base_error_witness :
    resultTruncated ⟨some ⟨true⟩, none⟩ = true ∧
    check_response ⟨"plain body", some ⟨some ⟨true⟩, none⟩⟩ =
      .error (.ipaError ("IPA results truncated.")) :=
  ⟨by decide,
   c8_truncated_base_error ⟨"plain body", some ⟨some ⟨true⟩, none⟩⟩ ⟨some ⟨true⟩, none⟩
     (by decide) rfl rfl rfl⟩

/-- C5: for a structurally valid, marker-free, non-truncated response
carrying a server error object with code `err.code`, `check_response`
classifies deterministically by band: Authentication for 1000-1999,
Authorization for 2000-2999, Invocation for 3000-3999, NotFound for
exactly 4001, AlreadyExists for exactly 4002, Execution for the other
codes in 4000-4999, Generic for 5000-5999, and the base "Unknown error."
for every code outside 1000-5999; 4001/4002 take priority over the
4000-4999 band. -/
theorem c5_error_code_bands (r : HttpResponse) (obj : RespObj) (err : ErrObj)
    (hm : strContains credMarker r.text = false) (hj : r.json = some obj)
    (ht : resultTruncated obj = false) (he : obj.error = some err) :
    (1000 ≤ err.code ∧ err.code ≤ 1999 →
      check_response r = .error (.authenticationError err.message)) ∧
    (2000 ≤ err.code ∧ err.code ≤ 2999 →
      check_response r = .error (.authorizationError err.message)) ∧
    (3000 ≤ err.code ∧ err.code ≤ 3999 →
      check_response r = .error (.invocationError err.message)) ∧
    (err.code = 4001 → check_response r = .error (.notFoundError err.message)) ∧
    (err.code = 4002 → check_response r = .error (.alreadyExistsError err.message)) ∧
    (4000 ≤ err.code ∧ err.code ≤ 4999 ∧ err.code ≠ 4001 ∧ err.code ≠ 4002 →
      check_response r = .error (.executionError err.message)) ∧
    (5000 ≤ err.code ∧ err.code ≤ 5999 →
      check_response r = .error (.genericError err.message)) ∧
    (err.code < 1000 ∨ 5999 < err.code →
      check_response r = .error (.ipaError ("Unknown error."))) := by
  have hcr : check_response r =
      (if 1000 ≤ err.code ∧ err.code ≤ 1999 then
        .error (.authenticationError err.message)
      else if 2000 ≤ err.code ∧ err.code ≤ 2999 then
        .error (.authorizationError err.message)
      else if 3000 ≤ err.code ∧ err.code ≤ 3999 then
        .error (.invocationError err.message)
      else if err.code = 4001 then .error (.notFoundError err.message)
      else if err.code = 4002 then .error (.alreadyExistsError err.message)
      else if 4000 ≤ err.code ∧ err.code ≤ 4999 then
        .error (.executionError err.message)
      else if 5000 ≤ err.code ∧ err.code ≤ 5999 then
        .error (.genericError err.message)
      else .error (.ipaError ("Unknown error."))) := by
    simp [check_response, hm, hj, ht, he]
  refine ⟨?_, ?_, ?_, ?_, ?_, ?_, ?_, ?_⟩ <;> intro hcode <;> rw [hcr] <;>
    split_ifs <;> first | rfl | omega

/-- C5, witness: a response with error code 4001 is classified NotFound
(taking priority over the 4000-4999 Execution band). -/
theorem c5_error_code_bands_witness :
    strContains credMarker ("resp body") = false ∧
    check_response ⟨"resp body", some ⟨none, some ⟨4001, "no such entry"⟩⟩⟩ =
      .error (.notFoundError ("no such entry")) :=
  ⟨by decide,
   (c5_error_code_bands ⟨"resp body", some ⟨none, some ⟨4001, "no such entry"⟩⟩⟩
     ⟨none, some ⟨4001, "no such entry"⟩⟩ ⟨4001, "no such entry"⟩
     (by decide) rfl rfl rfl).2.2.2.1 rfl⟩

theorem lookupStr_pos : ∀ (l : List (String × ℕ)), (∀ p ∈ l, 0 < p.2) →
    ∀ s c, lookupStr l s = some c → 0 < c := by
  intro l
  induction l with
  | nil => intro _ s c h; simp [lookupStr] at h
  | cons hd tl ih =>
    intro hall s c h
    obtain ⟨k, v⟩ := hd
    by_cases hk : k = s
    · simp only [lookupStr, if_pos hk, Option.some.injEq] at h
      have hv := hall (k, v) (List.mem_cons_self _ _)
      simp only at hv
      omega
    · simp only [lookupStr, if_neg hk] at h
      exact ih (fun p hp => hall p (List.mem_cons_of_mem _ hp)) s c h

/-- C6: every core count delivered by `cores_of` comes from the static
table and is strictly positive; the value `normalizeRecord` stores for
an observation satisfies `core_price = price / cores` with positive
cores; and an instance type whose size suffix is missing from the table
makes `cores_of` (and hence the normalisation in `get_pricing`) raise a
KeyError — the hard error standing for UnknownInstanceSize — instead of
returning a value. -/
theorem c6_core_price_normalization :
    (∀ t c, cores_of t = .ok c → 0 < c) ∧
    (∀ r info, normalizeRecord r = .ok info →
      info.core_price = info.price / (info.cores : ℚ) ∧ 0 < info.cores) ∧
    (∀ t, lookupStr coresTable (lastPartAfter '.' t) = none →
      cores_of t = .error .keyError) := by
  have hpos : ∀ t c, cores_of t = .ok c → 0 < c := by
    intro t c h
    unfold cores_of at h
    split at h
    · rename_i v hl
      cases h
      exact lookupStr_pos coresTable (by decide) _ _ hl
    · exact Except.noConfusion h
  refine ⟨hpos, ?_, ?_⟩
  · intro r info h
    unfold normalizeRecord at h
    split at h
    · exact Except.noConfusion h
    · rename_i c hc
      cases h
      refine ⟨?_, hpos _ _ hc⟩
      show ratDiv r.spotPrice (c : ℚ) = r.spotPrice / (c : ℚ)
      exact ratDiv_eq _ _
  · intro t h
    unfold cores_of
    rw [h]

/-- C6, witness: m5.xlarge has 4 > 0 cores; a record for it at 2/hr is
normalised to core_price 1/2 = 2/4; and the made-up size suffix of
"m9.smallish" is a KeyError. -/
theorem c6_core_price_normalization_witness :
    cores_of ("m5.xlarge") = .ok 4 ∧ 0 < 4 ∧
    cores_of ("m9.smallish") = .error .keyError :=
  ⟨by decide, c6_core_price_normalization.1 ("m5.xlarge") 4 (by decide),
   c6_core_price_normalization.2.2 ("m9.smallish") (by decide)⟩
